import Mathlib

/-!
# Verification of the c9s interactive session dashboard

A shallow embedding of the core pure logic of the `c9s` codebase
(session discovery and classification, cost derivation, the activity
notifier state machine, the SSE reconnect backoff policy, the input
translator, the resize propagation, the remote-detail timeline bound,
and the app-state selection invariant), together with theorems checking
the specification's claims against these definitions.

Conventions used throughout:
* `chrono::DateTime<Utc>` timestamps are modelled as `Int` (milliseconds
  since the epoch; the only operations used are subtraction and order).
* `u64`/`u32`/`usize` counters are modelled as `Nat` (none of the modelled
  code paths can overflow or rely on wrap-around, except where noted, in
  which case the wrap is written out with `% 256`).
* `f64` prices and costs are modelled as exact rationals `ℚ`; the source
  only multiplies, adds and divides small decimal constants.
* Filesystem and process I/O is abstracted into function inputs: a parsed
  transcript becomes the record list handed to the function, a file size
  becomes a `Nat` argument.
-/

namespace C9s

/-- Boolean substring test on character lists (model of Rust `str::contains`
with a `&str` pattern). -/
def listIsSub (needle : List Char) : List Char → Bool
  | [] => needle.isEmpty
  | c :: t => needle.isPrefixOf (c :: t) || listIsSub needle t

/-- `hay.contains(needle)` for Rust strings. -/
def strContainsStr (hay needle : String) : Bool :=
  listIsSub needle.toList hay.toList

/-! ## Session data model — `src/session/mod.rs` -/

/-- `SessionStatus` (src/session/mod.rs lines 13-19). -/
inductive SessionStatus where
  | Active
  | Idle
  | Thinking
  | Dead
deriving DecidableEq, Repr

/-- `SessionStatus::label` (src/session/mod.rs lines 21-30). -/
def SessionStatus.label : SessionStatus → String
  | .Active => "Active"
  | .Idle => "Idle"
  | .Thinking => "Thinking"
  | .Dead => "Dead"

/-- `Session` (src/session/mod.rs lines 38-61). `cwd: PathBuf` is modelled
as the path string. -/
structure Session where
  id : String
  pid : Option Nat
  cwd : String
  project_name : String
  git_branch : Option String
  model : Option String
  status : SessionStatus
  started_at : Int
  last_activity : Int
  input_tokens : Nat
  output_tokens : Nat
  cache_read_tokens : Nat
  cache_write_tokens : Nat
  message_count : Nat
  tool_call_count : Nat
  claude_version : Option String
  permission_mode : Option String
  plan_slugs : List String
  compaction_count : Nat
  hook_run_count : Nat
  hook_error_count : Nat
deriving DecidableEq, Repr

/-- `model_pricing` (src/session/mod.rs lines 108-116): USD per 1M tokens,
`(input_price, output_price)`. -/
def model_pricing (model : String) : ℚ × ℚ :=
  if strContainsStr model "opus" then (15, 75)
  else if strContainsStr model "haiku" then (0.80, 4)
  else (3, 15)

/-- `Session::estimated_cost_usd` (src/session/mod.rs lines 64-75). -/
def Session.estimated_cost_usd (s : Session) : ℚ :=
  let model := s.model.getD ""
  let p := model_pricing model
  let input_price := p.1
  let output_price := p.2
  let cache_read_price := input_price * 0.1
  let cache_write_price := input_price * 0.25
  ((s.input_tokens : ℚ) * input_price
    + (s.output_tokens : ℚ) * output_price
    + (s.cache_read_tokens : ℚ) * cache_read_price
    + (s.cache_write_tokens : ℚ) * cache_write_price)
    / 1000000

/-- `Session::total_tokens` (src/session/mod.rs lines 77-79). -/
def Session.total_tokens (s : Session) : Nat :=
  s.input_tokens + s.output_tokens + s.cache_read_tokens + s.cache_write_tokens

/-! ## Discovery classification — `src/session/discovery.rs` -/

/-- The hung threshold `chrono::Duration::minutes(5)` in milliseconds. -/
def hungThresholdMs : Int := 5 * 60 * 1000

/-- The `is_hung` test of `SessionDiscovery::discover_all`
(src/session/discovery.rs lines 127-132). -/
def isHung (now : Int) : Option Int → Bool
  | some ts => decide (hungThresholdMs < now - ts)
  | none => false

/-- The fresh-activity arm of the status match
(src/session/discovery.rs lines 136-146). -/
def statusFresh (last_message_type last_stop_reason : Option String) :
    SessionStatus :=
  match last_message_type with
  | some "user" => .Thinking
  | some "assistant" =>
      match last_stop_reason with
      | some "end_turn" => .Idle
      | some "tool_use" => .Active
      | _ => .Active
  | _ => .Active

/-- The status classification of `SessionDiscovery::discover_all`
(src/session/discovery.rs lines 124-150), extracted as a function of the
live-pid lookup result and the parsed transcript stats it reads. -/
def sessionStatusOf (pid : Option Nat) (now : Int) (last_timestamp : Option Int)
    (last_message_type last_stop_reason : Option String) : SessionStatus :=
  match pid with
  | some _ =>
      if isHung now last_timestamp then .Idle
      else statusFresh last_message_type last_stop_reason
  | none => .Dead

/-! ## Claim C1 — the session status decision table -/

/-- C1: the session status is computed exactly by the spec's decision table:
no live pid ⇒ Dead; live pid with last activity more than 5 minutes old ⇒
Idle; live pid with fresh activity ⇒ Thinking on a last `user` message,
Idle on `assistant` + `end_turn`, Active on `assistant` with any other stop
reason, and Active when the last message type is anything else or missing. -/
theorem c1_status_decision_table (pid : Option Nat) (now : Int)
    (ts : Option Int) (mt sr : Option String) :
    (pid = none → sessionStatusOf pid now ts mt sr = .Dead) ∧
    (pid ≠ none → (∃ t, ts = some t ∧ hungThresholdMs < now - t) →
      sessionStatusOf pid now ts mt sr = .Idle) ∧
    (pid ≠ none → (∀ t, ts = some t → now - t ≤ hungThresholdMs) →
      ((mt = some "user" → sessionStatusOf pid now ts mt sr = .Thinking) ∧
       (mt = some "assistant" → sr = some "end_turn" →
          sessionStatusOf pid now ts mt sr = .Idle) ∧
       (mt = some "assistant" → sr ≠ some "end_turn" →
          sessionStatusOf pid now ts mt sr = .Active) ∧
       (mt ≠ some "user" → mt ≠ some "assistant" →
          sessionStatusOf pid now ts mt sr = .Active))) := by
  refine ⟨?_, ?_, ?_⟩
  · intro h; subst h; rfl
  · intro hp ⟨t, hts, hlt⟩
    subst hts
    cases pid with
    | none => exact absurd rfl hp
    | some p =>
        have : isHung now (some t) = true := by
          simpa [isHung] using hlt
        simp [sessionStatusOf, this]
  · intro hp hfresh
    cases pid with
    | none => exact absurd rfl hp
    | some p =>
        have hhung : isHung now ts = false := by
          cases ts with
          | none => rfl
          | some t =>
              simp only [isHung, decide_eq_false_iff_not, not_lt]
              exact hfresh t rfl
        refine ⟨?_, ?_, ?_, ?_⟩
        · intro hmt; subst hmt
          simp [sessionStatusOf, hhung, statusFresh]
        · intro hmt hsr; subst hmt; subst hsr
          simp [sessionStatusOf, hhung, statusFresh]
        · intro hmt hsr; subst hmt
          simp only [sessionStatusOf, hhung, Bool.false_eq_true, if_false]
          cases sr with
          | none => rfl
          | some s =>
              by_cases he : s = "end_turn"
              · exact absurd (by rw [he]) hsr
              · show statusFresh (some "assistant") (some s) = .Active
                simp only [statusFresh]
                split <;> first
                  | rfl
                  | (rename_i heq; exact absurd (by injection heq) he)
        · intro hu ha
          simp only [sessionStatusOf, hhung, Bool.false_eq_true, if_false]
          show statusFresh mt sr = .Active
          simp only [statusFresh]

/-- Witness for C1 at concrete inputs: a live pid with fresh activity and a
last `user` message is classified Thinking. -/
theorem c1_status_decision_table_witness :
    ((some 7 : Option Nat) ≠ none) ∧
    (∀ t, (some 0 : Option Int) = some t → (1000 : Int) - t ≤ hungThresholdMs) ∧
    sessionStatusOf (some 7) 1000 (some 0) (some "user") none = .Thinking := by
  refine ⟨by decide, ?_, ?_⟩
  · intro t ht
    injection ht with h
    subst h
    decide
  · exact (c1_status_decision_table (some 7) 1000 (some 0) (some "user") none).2.2
      (by decide) (by intro t ht; injection ht with h; subst h; decide) |>.1 rfl

/-! ## Claim C2 — cost is a pure function of token totals and model -/

/-- C2: the estimated cost equals
`(in·p_in + out·p_out + cr·p_in·0.1 + cw·p_in·0.25) / 1e6` with per-model
prices (15,75) for a model containing "opus", (0.80,4) for one containing
"haiku", and (3,15) otherwise. -/
theorem c2_estimated_cost_formula (s : Session) :
    (strContainsStr (s.model.getD "") "opus" = true →
      s.estimated_cost_usd =
        ((s.input_tokens : ℚ) * 15 + (s.output_tokens : ℚ) * 75
          + (s.cache_read_tokens : ℚ) * (15 * 0.1)
          + (s.cache_write_tokens : ℚ) * (15 * 0.25)) / 1000000) ∧
    (strContainsStr (s.model.getD "") "opus" = false →
      strContainsStr (s.model.getD "") "haiku" = true →
      s.estimated_cost_usd =
        ((s.input_tokens : ℚ) * 0.80 + (s.output_tokens : ℚ) * 4
          + (s.cache_read_tokens : ℚ) * (0.80 * 0.1)
          + (s.cache_write_tokens : ℚ) * (0.80 * 0.25)) / 1000000) ∧
    (strContainsStr (s.model.getD "") "opus" = false →
      strContainsStr (s.model.getD "") "haiku" = false →
      s.estimated_cost_usd =
        ((s.input_tokens : ℚ) * 3 + (s.output_tokens : ℚ) * 15
          + (s.cache_read_tokens : ℚ) * (3 * 0.1)
          + (s.cache_write_tokens : ℚ) * (3 * 0.25)) / 1000000) := by
  refine ⟨?_, ?_, ?_⟩
  · intro hop
    simp only [Session.estimated_cost_usd, model_pricing, hop, if_true]
  · intro hop hha
    simp only [Session.estimated_cost_usd, model_pricing, hop, hha,
      Bool.false_eq_true, if_false, if_true]
  · intro hop hha
    simp only [Session.estimated_cost_usd, model_pricing, hop, hha,
      Bool.false_eq_true, if_false]

/-- A concrete session used in witnesses. -/
def sessionEx (model : Option String) : Session where
  id := "test"
  pid := none
  cwd := "/tmp"
  project_name := "test"
  git_branch := none
  model := model
  status := .Dead
  started_at := 0
  last_activity := 0
  input_tokens := 1000000
  output_tokens := 100000
  cache_read_tokens := 0
  cache_write_tokens := 0
  message_count := 0
  tool_call_count := 0
  claude_version := none
  permission_mode := none
  plan_slugs := []
  compaction_count := 0
  hook_run_count := 0
  hook_error_count := 0

/-- Witness for C2: the opus case at a concrete session. -/
theorem c2_estimated_cost_formula_witness :
    strContainsStr (((sessionEx (some "claude-opus-4-20250514")).model).getD "")
      "opus" = true ∧
    (sessionEx (some "claude-opus-4-20250514")).estimated_cost_usd =
      (((sessionEx (some "claude-opus-4-20250514")).input_tokens : ℚ) * 15
        + ((sessionEx (some "claude-opus-4-20250514")).output_tokens : ℚ) * 75
        + ((sessionEx (some "claude-opus-4-20250514")).cache_read_tokens : ℚ)
            * (15 * 0.1)
        + ((sessionEx (some "claude-opus-4-20250514")).cache_write_tokens : ℚ)
            * (15 * 0.25)) / 1000000 :=
  ⟨by decide, (c2_estimated_cost_formula
      (sessionEx (some "claude-opus-4-20250514"))).1 (by decide)⟩

/-! ## Activity notifier — `src/terminal/notifier.rs`

The notifier tails a transcript file.  Filesystem access is abstracted into
the inputs of one `check` call: the current file size and the list of JSON
records parsed from the bytes appended since the previous check (the code
only reads the file when the size grew; unparseable and blank lines are
skipped by the reader loop and therefore never reach the state machine). -/

/-- `TOOL_WAIT_MS` (src/terminal/notifier.rs line 17). -/
def TOOL_WAIT_MS : Nat := 5000

/-- `SessionState` (src/terminal/notifier.rs lines 19-26). -/
inductive SessionState where
  | Unknown
  | UserSent
  | Working
  | Idle
  | ToolWait
deriving DecidableEq, Repr

/-- One parsed transcript record, with the fields the notifier reads:
`isCompactSummary`, `type`, and `message.stop_reason`. -/
structure JsonlRecord where
  isCompactSummary : Bool
  msg_type : String
  stop_reason : Option String
deriving DecidableEq, Repr

/-- `JsonlNotifier` state (src/terminal/notifier.rs lines 28-34); the two
path fields are abstracted away (the path is fixed and known here). -/
structure JsonlNotifier where
  last_size : Nat
  state : SessionState
  tool_use_at : Option Nat
deriving DecidableEq, Repr

/-- `JsonlNotifier::new` when the transcript file already exists
(src/terminal/notifier.rs lines 44-72). -/
def JsonlNotifier.new (size : Nat) : JsonlNotifier :=
  { last_size := size, state := .Unknown, tool_use_at := none }

/-- The per-record state transition inside `JsonlNotifier::check`
(src/terminal/notifier.rs lines 143-202).  Returns the new state and
whether this record set `should_notify`. -/
def JsonlNotifier.stepRecord (now : Nat) (s : JsonlNotifier)
    (r : JsonlRecord) : JsonlNotifier × Bool :=
  if r.isCompactSummary then
    ({ s with tool_use_at := none }, true)
  else
    match r.msg_type with
    | "user" => ({ s with state := .UserSent, tool_use_at := none }, false)
    | "assistant" =>
        match r.stop_reason with
        | some "end_turn" =>
            ({ s with state := .Idle, tool_use_at := none },
              decide (s.state = .UserSent ∨ s.state = .Working
                        ∨ s.state = .ToolWait))
        | some "tool_use" =>
            ({ s with state := .ToolWait, tool_use_at := some now }, false)
        | _ =>
            if s.state ≠ .ToolWait then
              ({ s with state := .Working, tool_use_at := none }, false)
            else (s, false)
    | "progress" | "result" =>
        if s.state ≠ .ToolWait then ({ s with state := .Working }, false)
        else (s, false)
    | _ => (s, false)

/-- `JsonlNotifier::check` (src/terminal/notifier.rs lines 74-209):
unchanged size checks the tool-wait timer (`now.saturating_sub` is `Nat`
subtraction); a shrunk file resets the offset; a grown file folds the
appended records through the state machine, OR-ing `should_notify`. -/
def JsonlNotifier.check (s : JsonlNotifier) (now current_size : Nat)
    (recs : List JsonlRecord) : JsonlNotifier × Bool :=
  if current_size = s.last_size then
    match s.tool_use_at with
    | some tool_at =>
        if TOOL_WAIT_MS ≤ now - tool_at then
          ({ s with tool_use_at := none }, true)
        else (s, false)
    | none => (s, false)
  else if current_size < s.last_size then
    ({ s with last_size := current_size }, false)
  else
    let r := recs.foldl
      (fun acc r =>
        let st := JsonlNotifier.stepRecord now acc.1 r
        (st.1, acc.2 || st.2))
      (s, false)
    ({ r.1 with last_size := current_size }, r.2)

/-- Input of one `check` call: the poll time, the observed file size, and
the records appended since the previous check. -/
structure CheckInput where
  now : Nat
  size : Nat
  recs : List JsonlRecord
deriving Repr

/-- Run a sequence of `check` calls, counting the raised bells. -/
def JsonlNotifier.runChecks (s : JsonlNotifier) :
    List CheckInput → JsonlNotifier × Nat
  | [] => (s, 0)
  | i :: rest =>
      let c := JsonlNotifier.check s i.now i.size i.recs
      let r := JsonlNotifier.runChecks c.1 rest
      (r.1, (if c.2 then 1 else 0) + r.2)

/-- A sequence of size-unchanged checks raises no bell once the tool-wait
timer is clear. -/
theorem runChecks_noChange_no_timer (ts : List Nat) (s : JsonlNotifier)
    (h : s.tool_use_at = none) :
    (JsonlNotifier.runChecks s
        (ts.map (fun t => ⟨t, s.last_size, []⟩))).2 = 0 := by
  induction ts with
  | nil => rfl
  | cons t rest ih =>
      simp only [List.map_cons, JsonlNotifier.runChecks,
        JsonlNotifier.check, if_pos rfl, h]
      simpa using ih

/-- With a pending tool-wait timer `t0`, a sequence of size-unchanged checks
raises exactly one bell iff some check happens at least `TOOL_WAIT_MS`
after `t0`, and never more than one. -/
theorem runChecks_noChange_timer (ts : List Nat) (s : JsonlNotifier)
    (t0 : Nat) (h : s.tool_use_at = some t0) :
    (JsonlNotifier.runChecks s
        (ts.map (fun t => ⟨t, s.last_size, []⟩))).2 =
      if ts.any (fun t => decide (TOOL_WAIT_MS ≤ t - t0)) then 1 else 0 := by
  induction ts with
  | nil => rfl
  | cons t rest ih =>
      by_cases hfire : TOOL_WAIT_MS ≤ t - t0
      · simp only [List.map_cons, JsonlNotifier.runChecks,
          JsonlNotifier.check, if_pos rfl, h, if_pos hfire]
        have hrest :
            (JsonlNotifier.runChecks { s with tool_use_at := none }
                (rest.map (fun t => ⟨t, s.last_size, []⟩))).2 = 0 :=
          runChecks_noChange_no_timer rest { s with tool_use_at := none } rfl
        simp only [List.any_cons, decide_eq_true hfire, Bool.true_or, if_pos]
        simpa using hrest
      · simp only [List.map_cons, JsonlNotifier.runChecks,
          JsonlNotifier.check, if_pos rfl, h, if_neg hfire]
        simp only [List.any_cons, decide_eq_false hfire, Bool.false_or]
        simpa using ih

/-! ## Claim C3 — bell fan-out -/

/-- C3: a notifier fed one append containing (user) then
(assistant, stop_reason=end_turn) raises exactly one bell over the whole
run; a notifier fed (assistant, stop_reason=tool_use) and then only
size-unchanged checks, at least one of which is ≥ 5 s after the tool-use
check, also raises exactly one bell (the tool-wait timer fires once and
never again). -/
theorem c3_bell_fanout (sz0 sz1 n0 : Nat) (h : sz0 < sz1) (ts : List Nat) :
    ((JsonlNotifier.runChecks (JsonlNotifier.new sz0)
        (⟨n0, sz1, [⟨false, "user", none⟩,
                    ⟨false, "assistant", some "end_turn"⟩]⟩ ::
          ts.map (fun t => ⟨t, sz1, []⟩))).2 = 1) ∧
    ((∃ t ∈ ts, n0 + TOOL_WAIT_MS ≤ t) →
      (JsonlNotifier.runChecks (JsonlNotifier.new sz0)
          (⟨n0, sz1, [⟨false, "assistant", some "tool_use"⟩]⟩ ::
            ts.map (fun t => ⟨t, sz1, []⟩))).2 = 1) := by
  have hne : sz1 ≠ sz0 := Nat.ne_of_gt h
  have hnlt : ¬ sz1 < sz0 := Nat.not_lt.mpr (Nat.le_of_lt h)
  constructor
  · have hstep :
        JsonlNotifier.check (JsonlNotifier.new sz0) n0 sz1
          [⟨false, "user", none⟩, ⟨false, "assistant", some "end_turn"⟩] =
          ({ last_size := sz1, state := .Idle, tool_use_at := none }, true) := by
      simp [JsonlNotifier.check, JsonlNotifier.new, JsonlNotifier.stepRecord,
        hne, hnlt]
    simp only [JsonlNotifier.runChecks, hstep]
    have hrest :
        (JsonlNotifier.runChecks
            ({ last_size := sz1, state := .Idle, tool_use_at := none } :
              JsonlNotifier)
            (ts.map (fun t => ⟨t, sz1, []⟩))).2 = 0 :=
      runChecks_noChange_no_timer ts _ rfl
    simpa using hrest
  · rintro ⟨t, ht, hle⟩
    have hstep :
        JsonlNotifier.check (JsonlNotifier.new sz0) n0 sz1
          [⟨false, "assistant", some "tool_use"⟩] =
          ({ last_size := sz1, state := .ToolWait, tool_use_at := some n0 },
            false) := by
      simp [JsonlNotifier.check, JsonlNotifier.new, JsonlNotifier.stepRecord,
        hne, hnlt]
    simp only [JsonlNotifier.runChecks, hstep]
    have hrest :
        (JsonlNotifier.runChecks
            ({ last_size := sz1, state := .ToolWait, tool_use_at := some n0 } :
              JsonlNotifier)
            (ts.map (fun t => ⟨t, sz1, []⟩))).2 =
          if ts.any (fun t => decide (TOOL_WAIT_MS ≤ t - n0)) then 1 else 0 :=
      runChecks_noChange_timer ts _ n0 rfl
    have hany : ts.any (fun t => decide (TOOL_WAIT_MS ≤ t - n0)) = true := by
      rw [List.any_eq_true]
      exact ⟨t, ht, by simpa using Nat.le_sub_of_add_le (by omega)⟩
    simp [hrest, hany]

/-- Witness for C3 at concrete inputs. -/
theorem c3_bell_fanout_witness :
    (0 < 10) ∧
    ((JsonlNotifier.runChecks (JsonlNotifier.new 0)
        (⟨0, 10, [⟨false, "user", none⟩,
                  ⟨false, "assistant", some "end_turn"⟩]⟩ ::
          [6000].map (fun t => ⟨t, 10, []⟩))).2 = 1) ∧
    ((JsonlNotifier.runChecks (JsonlNotifier.new 0)
        (⟨0, 10, [⟨false, "assistant", some "tool_use"⟩]⟩ ::
          [6000].map (fun t => ⟨t, 10, []⟩))).2 = 1) := by
  have h := c3_bell_fanout 0 10 0 (by decide) [6000]
  exact ⟨by decide, h.1, h.2 ⟨6000, by decide, by decide⟩⟩

/-! ## SSE reconnect backoff — `src/tervezo/sse.rs` -/

/-- `MAX_BACKOFF_SECS` (src/tervezo/sse.rs line 13). -/
def MAX_BACKOFF_SECS : Nat := 30

/-- `HEALTHY_CONNECTION_SECS` (src/tervezo/sse.rs line 19). -/
def HEALTHY_CONNECTION_SECS : Nat := 10

/-- One iteration of the backoff bookkeeping in `SseStream::stream_loop`
(src/tervezo/sse.rs lines 67-116).  `outcome` is `some alive_secs` when the
connection opened and later ended after `alive_secs` seconds (the healthy
check runs then), `none` for a failed connect (no reset).  Returns the
sleep delay applied after this attempt and the backoff for the next one
(`backoff_secs = (backoff_secs * 2).min(MAX_BACKOFF_SECS)` runs after the
sleep). -/
def backoffUpdate (backoff_secs : Nat) (outcome : Option Nat) : Nat × Nat :=
  let b :=
    match outcome with
    | some alive_secs =>
        if HEALTHY_CONNECTION_SECS ≤ alive_secs then 1 else backoff_secs
    | none => backoff_secs
  (b, min (b * 2) MAX_BACKOFF_SECS)

/-- The sequence of sleep delays produced by `stream_loop` for a sequence
of connection outcomes, starting from a given backoff value (the loop
starts with `backoff_secs = 1`). -/
def backoffDelays (backoff_secs : Nat) : List (Option Nat) → List Nat
  | [] => []
  | o :: rest =>
      let u := backoffUpdate backoff_secs o
      u.1 :: backoffDelays u.2 rest

/-! ## Claim C4 — healthy-connection backoff reset

The claim asserts that after a first connection living ≥ 10 s and a second
living < 10 s, the delay applied after the *second* disconnect is 1 s.
In the code the reset fires when the first (healthy) connection ends, so
the 1 s delay is the one applied after the *first* disconnect; it is then
doubled, and the delay after the second disconnect is 2 s. -/

/-- C4 counterexample: starting from the loop's initial backoff of 1 s,
with a first connection alive 10 s and a second alive 0 s, the delays are
[1 s, 2 s] — the delay after the second disconnect is 2 s, not 1 s. -/
theorem c4_healthy_reset_counterexample :
    backoffDelays 1 [some 10, some 0] = [1, 2] ∧
    (backoffDelays 1 [some 10, some 0]).get? 1 ≠ some 1 := by
  decide

/-- C4 amended: for two consecutive disconnects where the first connection
lived ≥ 10 s and the second lived < 10 s, the backoff delay applied after
the first (healthy) disconnect is 1 second and the delay applied after the
second disconnect is 2 seconds (the doubling of the reset value, capped at
30 s), whatever the backoff had escalated to before. -/
theorem c4_healthy_reset_amended (b a1 a2 : Nat)
    (h1 : HEALTHY_CONNECTION_SECS ≤ a1) (h2 : a2 < HEALTHY_CONNECTION_SECS) :
    backoffDelays b [some a1, some a2] = [1, 2] := by
  simp [backoffDelays, backoffUpdate, h1, Nat.not_le.mpr h2, MAX_BACKOFF_SECS]

/-- Witness for the amended C4, from an escalated backoff of 8 s. -/
theorem c4_healthy_reset_amended_witness :
    HEALTHY_CONNECTION_SECS ≤ 10 ∧ 0 < HEALTHY_CONNECTION_SECS ∧
    backoffDelays 8 [some 10, some 0] = [1, 2] :=
  ⟨by decide, by decide, c4_healthy_reset_amended 8 10 0 (by decide) (by decide)⟩

/-! ## View modes and input translation — `src/app.rs`, `src/input/handler.rs` -/

/-- `ViewMode` (src/app.rs lines 15-28). -/
inductive ViewMode where
  | List
  | Detail
  | Help
  | Filter
  | QSwitcher
  | Terminal
  | TerminalQSwitcher
  | Command
  | ConfirmQuit
  | TervezoDetail
  | Log
deriving DecidableEq, Repr

/-- The `crossterm` key codes the handler distinguishes; every other code
is collapsed into `Other` (it only ever reaches `_` arms). -/
inductive KeyCode where
  | Char (c : Char)
  | Enter
  | Backspace
  | Tab
  | Up
  | Down
  | Left
  | Right
  | Home
  | End
  | PageUp
  | PageDown
  | Delete
  | Insert
  | F (n : Nat)
  | Esc
  | Other
deriving DecidableEq, Repr

/-- The three `crossterm` modifier bits the handler reads. -/
structure KeyModifiers where
  ctrl : Bool
  alt : Bool
  shift : Bool
deriving DecidableEq, Repr

/-- A key event: code plus modifiers. -/
structure KeyEvent where
  code : KeyCode
  modifiers : KeyModifiers
deriving DecidableEq, Repr

/-- `Action` (src/input/handler.rs lines 5-53). -/
inductive Action where
  | Quit
  | MoveUp
  | MoveDown
  | MoveToTop
  | MoveToBottom
  | Select
  | Back
  | ShowDetail
  | ShowHelp
  | ToggleFilter
  | FilterInput (c : Char)
  | FilterBackspace
  | FilterSubmit
  | CycleSort
  | AttachSession
  | AttachByIndex (i : Nat)
  | ToggleQSwitcher
  | Refresh
  | LaunchNew
  | TerminalInput (bytes : List Nat)
  | Detach
  | TerminalQSwitcher
  | CycleNextSession
  | CyclePrevSession
  | CommandInput (c : Char)
  | CommandBackspace
  | CommandSubmit
  | CommandCancel
  | ScrollUp (n : Nat)
  | ScrollDown (n : Nat)
  | ConfirmQuit
  | CancelQuit
  | TervezoTabNext
  | TervezoTabPrev
  | TervezoScrollUp
  | TervezoScrollDown
  | TervezoScrollHalfPageUp
  | TervezoScrollHalfPageDown
  | TervezoScrollToTop
  | TervezoScrollToBottom
  | TervezoSsh
  | TervezoRefreshDetail
  | TervezoToggleExpand
  | ToggleLog
  | ClearLog
  | None
deriving DecidableEq, Repr

/-- UTF-8 encoding of one scalar value (model of Rust
`char::encode_utf8`). -/
def utf8Bytes (n : Nat) : List Nat :=
  if n < 0x80 then [n]
  else if n < 0x800 then
    [0xC0 + n / 64, 0x80 + n % 64]
  else if n < 0x10000 then
    [0xE0 + n / 4096, 0x80 + (n / 64) % 64, 0x80 + n % 64]
  else
    [0xF0 + n / 262144, 0x80 + (n / 4096) % 64, 0x80 + (n / 64) % 64,
      0x80 + n % 64]

/-- `f_key_bytes` (src/input/handler.rs lines 292-308). -/
def f_key_bytes (n : Nat) : List Nat :=
  match n with
  | 1 => [0x1b, 79, 80]
  | 2 => [0x1b, 79, 81]
  | 3 => [0x1b, 79, 82]
  | 4 => [0x1b, 79, 83]
  | 5 => [0x1b, 91, 49, 53, 126]
  | 6 => [0x1b, 91, 49, 55, 126]
  | 7 => [0x1b, 91, 49, 56, 126]
  | 8 => [0x1b, 91, 49, 57, 126]
  | 9 => [0x1b, 91, 50, 48, 126]
  | 10 => [0x1b, 91, 50, 49, 126]
  | 11 => [0x1b, 91, 50, 51, 126]
  | 12 => [0x1b, 91, 50, 52, 126]
  | _ => []

/-- `key_event_to_bytes` (src/input/handler.rs lines 248-290).  The ctrl
byte mirrors `(c as u8).wrapping_sub(b'a').wrapping_add(1)` with the u8
wrap-arounds written out mod 256. -/
def key_event_to_bytes (key : KeyEvent) : List Nat :=
  let ctrl := key.modifiers.ctrl
  let alt := key.modifiers.alt
  let shift := key.modifiers.shift
  let base : List Nat :=
    match key.code with
    | .Char c =>
        if ctrl then [(((c.toNat % 256) + 256 - 97) % 256 + 1) % 256]
        else utf8Bytes c.toNat
    | .Enter =>
        if shift then [0x1b, 91, 49, 51, 59, 50, 117] else [13]
    | .Backspace => [0x7f]
    | .Tab => if shift then [0x1b, 91, 90] else [9]
    | .Up => [0x1b, 91, 65]
    | .Down => [0x1b, 91, 66]
    | .Right => [0x1b, 91, 67]
    | .Left => [0x1b, 91, 68]
    | .Home => [0x1b, 91, 72]
    | .End => [0x1b, 91, 70]
    | .PageUp => [0x1b, 91, 53, 126]
    | .PageDown => [0x1b, 91, 54, 126]
    | .Delete => [0x1b, 91, 51, 126]
    | .Insert => [0x1b, 91, 50, 126]
    | .F n => f_key_bytes n
    | .Esc => [0x1b]
    | _ => []
  if alt && !base.isEmpty then 0x1b :: base else base

/-- `handle_normal_key` (src/input/handler.rs lines 110-131).  The digit
arm (`'1'..='9'`) is written after the literal arms; the character sets
are disjoint, so the order is immaterial. -/
def handle_normal_key (key : KeyEvent) : Action :=
  match key.code with
  | .Char 'q' => .Quit
  | .Char 'j' | .Down => .MoveDown
  | .Char 'k' | .Up => .MoveUp
  | .Char 'g' => .MoveToTop
  | .Char 'G' => .MoveToBottom
  | .Enter => .Select
  | .Esc => .Back
  | .Char 'd' => .ShowDetail
  | .Char 'a' => .AttachSession
  | .Char '?' => .ShowHelp
  | .Char '/' => .ToggleFilter
  | .Char 's' => .CycleSort
  | .Char 'r' => .Refresh
  | .Char 'n' => .LaunchNew
  | .Char 'L' => .ToggleLog
  | .Char ' ' => .ToggleQSwitcher
  | .Char c => if '1' ≤ c ∧ c ≤ '9' then .AttachByIndex (c.toNat - 49) else .None
  | _ => .None

/-- `handle_qswitcher_key` (src/input/handler.rs lines 133-142). -/
def handle_qswitcher_key (key : KeyEvent) : Action :=
  match key.code with
  | .Char 'j' | .Down => .MoveDown
  | .Char 'k' | .Up => .MoveUp
  | .Enter => .AttachSession
  | .Esc | .Char ' ' | .Char 'q' => .Back
  | .Char c => if '1' ≤ c ∧ c ≤ '9' then .AttachByIndex (c.toNat - 49) else .None
  | _ => .None

/-- `handle_filter_key` (src/input/handler.rs lines 144-152). -/
def handle_filter_key (key : KeyEvent) : Action :=
  match key.code with
  | .Esc => .Back
  | .Enter => .FilterSubmit
  | .Backspace => .FilterBackspace
  | .Char c => .FilterInput c
  | _ => .None

/-- `handle_terminal_key` (src/input/handler.rs lines 154-168). -/
def handle_terminal_key (key : KeyEvent) : Action :=
  if key.modifiers.ctrl then
    match key.code with
    | .Char 'd' => .Detach
    | .Char ' ' => .TerminalQSwitcher
    | .Char 'n' => .CycleNextSession
    | .Char 'p' => .CyclePrevSession
    | .Char 'k' => .ScrollUp 10
    | .Char 'j' => .ScrollDown 10
    | _ => .TerminalInput (key_event_to_bytes key)
  else
    .TerminalInput (key_event_to_bytes key)

/-- `handle_terminal_qswitcher_key` (src/input/handler.rs lines 170-188).
The digit arm is written after the literal arms (disjoint sets). -/
def handle_terminal_qswitcher_key (key : KeyEvent) : Action :=
  if key.modifiers.ctrl && key.code == .Char 'd' then .Detach
  else
    match key.code with
    | .Char 'j' | .Down => .MoveDown
    | .Char 'k' | .Up => .MoveUp
    | .Enter => .AttachSession
    | .Esc | .Char ' ' => .Back
    | .Char c =>
        if '1' ≤ c ∧ c ≤ '9' then .AttachByIndex (c.toNat - 49)
        else if key.modifiers.ctrl && key.code == .Char ' ' then .Back
        else .None
    | _ =>
        if key.modifiers.ctrl && key.code == .Char ' ' then .Back
        else .None

/-- `handle_confirm_quit_key` (src/input/handler.rs lines 190-198). -/
def handle_confirm_quit_key (key : KeyEvent) : Action :=
  match key.code with
  | .Enter => .ConfirmQuit
  | .Esc | .Char 'q' => .CancelQuit
  | .Char 'y' => .ConfirmQuit
  | .Char 'n' => .CancelQuit
  | _ => .None

/-- `handle_tervezo_detail_key` (src/input/handler.rs lines 200-224). -/
def handle_tervezo_detail_key (key : KeyEvent) : Action :=
  let ctrl := key.modifiers.ctrl
  match key.code with
  | .Esc | .Char 'q' => .Back
  | .Tab | .Char 'l' => .TervezoTabNext
  | .Char 'h' => .TervezoTabPrev
  | .Char 'j' | .Down => .TervezoScrollDown
  | .Char 'k' | .Up => .TervezoScrollUp
  | .Char 'J' => .MoveDown
  | .Char 'K' => .MoveUp
  | .Char 'd' => if ctrl then .TervezoScrollHalfPageDown else .None
  | .Char 'u' => if ctrl then .TervezoScrollHalfPageUp else .None
  | .PageDown => .TervezoScrollHalfPageDown
  | .PageUp => .TervezoScrollHalfPageUp
  | .Char 'g' => .TervezoScrollToTop
  | .Char 'G' => .TervezoScrollToBottom
  | .Enter => .TervezoToggleExpand
  | .Char 's' => .TervezoSsh
  | .Char 'r' => .TervezoRefreshDetail
  | _ => .None

/-- `handle_log_key` (src/input/handler.rs lines 226-236). -/
def handle_log_key (key : KeyEvent) : Action :=
  match key.code with
  | .Esc | .Char 'q' | .Char 'L' => .ToggleLog
  | .Char 'j' | .Down => .MoveDown
  | .Char 'k' | .Up => .MoveUp
  | .Char 'g' => .MoveToTop
  | .Char 'G' => .MoveToBottom
  | .Char 'c' => .ClearLog
  | _ => .None

/-- `handle_command_key` (src/input/handler.rs lines 238-246). -/
def handle_command_key (key : KeyEvent) : Action :=
  match key.code with
  | .Esc => .CommandCancel
  | .Enter => .CommandSubmit
  | .Backspace => .CommandBackspace
  | .Char c => .CommandInput c
  | _ => .None

/-- The early Ctrl+C test of `handle_key` (src/input/handler.rs lines
88-95): outside the Terminal modes, Ctrl+C returns Quit immediately. -/
def quitEarlyTest (key : KeyEvent) (mode : ViewMode) : Bool :=
  match mode with
  | .Terminal | .TerminalQSwitcher => false
  | _ => key.modifiers.ctrl && key.code == .Char 'c'

/-- `handle_key` (src/input/handler.rs lines 87-108). -/
def handle_key (key : KeyEvent) (mode : ViewMode) : Action :=
  if quitEarlyTest key mode then
    .Quit
  else
    match mode with
    | .Filter => handle_filter_key key
    | .QSwitcher => handle_qswitcher_key key
    | .Terminal => handle_terminal_key key
    | .TerminalQSwitcher => handle_terminal_qswitcher_key key
    | .Command => handle_command_key key
    | .ConfirmQuit => handle_confirm_quit_key key
    | .TervezoDetail => handle_tervezo_detail_key key
    | .Log => handle_log_key key
    | _ => handle_normal_key key

/-! ## Claim C5 — Ctrl+C gating -/

/-- C5: Ctrl+C maps to Quit in every view mode except the Terminal modes;
in Terminal mode it is not Quit but is forwarded to the PTY as input
bytes, namely the C0 byte 3. -/
theorem c5_ctrl_c_gating (mode : ViewMode) (mods : KeyModifiers) :
    (mods.ctrl = true → mode ≠ .Terminal → mode ≠ .TerminalQSwitcher →
      handle_key ⟨.Char 'c', mods⟩ mode = .Quit) ∧
    (mods.ctrl = true →
      handle_key ⟨.Char 'c', mods⟩ .Terminal =
        .TerminalInput (key_event_to_bytes ⟨.Char 'c', mods⟩) ∧
      handle_key ⟨.Char 'c', mods⟩ .Terminal ≠ .Quit) ∧
    key_event_to_bytes ⟨.Char 'c', ⟨true, false, false⟩⟩ = [3] := by
  refine ⟨?_, ?_, by decide⟩
  · intro hc hT hTQ
    cases mode <;>
      first
        | exact absurd rfl hT
        | exact absurd rfl hTQ
        | simp [handle_key, quitEarlyTest, hc]
  · intro hc
    constructor
    · simp [handle_key, quitEarlyTest, handle_terminal_key, hc]
    · simp [handle_key, quitEarlyTest, handle_terminal_key, hc]

/-- Witness for C5 in List mode with only ctrl held. -/
theorem c5_ctrl_c_gating_witness :
    ((⟨true, false, false⟩ : KeyModifiers).ctrl = true) ∧
    (ViewMode.List ≠ .Terminal) ∧ (ViewMode.List ≠ .TerminalQSwitcher) ∧
    handle_key ⟨.Char 'c', ⟨true, false, false⟩⟩ .List = .Quit :=
  ⟨rfl, by decide, by decide,
    (c5_ctrl_c_gating .List ⟨true, false, false⟩).1 rfl (by decide) (by decide)⟩

/-! ## Claim C9 — remote-detail key map

The spec claims `a` opens the actions menu, `p` opens the prompt input and
`m` toggles raw-markdown rendering.  `handle_tervezo_detail_key` has no
arm for any of the three (they fall through to `Action::None`), and the
`Action` enum in src/input/handler.rs has no actions-menu / prompt /
markdown variants at all — although src/main.rs dispatches
`TervezoOpenActionMenu`, `TervezoOpenPrompt` and `TervezoToggleRaw`
actions and renders `TervezoActionMenu` / `TervezoPromptInput` view modes,
so the handler in the tree is inconsistent with its caller. -/

/-- C9: evaluation of `handle_tervezo_detail_key`: the keys the claim
lists besides `a`/`p`/`m` map as claimed, while `a`, `p` and `m` map to
`Action::None`. -/
theorem c9_tervezo_detail_keymap :
    handle_tervezo_detail_key ⟨.Char 'a', ⟨false, false, false⟩⟩ = .None ∧
    handle_tervezo_detail_key ⟨.Char 'p', ⟨false, false, false⟩⟩ = .None ∧
    handle_tervezo_detail_key ⟨.Char 'm', ⟨false, false, false⟩⟩ = .None ∧
    handle_tervezo_detail_key ⟨.Tab, ⟨false, false, false⟩⟩ = .TervezoTabNext ∧
    handle_tervezo_detail_key ⟨.Char 'l', ⟨false, false, false⟩⟩ =
      .TervezoTabNext ∧
    handle_tervezo_detail_key ⟨.Char 'h', ⟨false, false, false⟩⟩ =
      .TervezoTabPrev ∧
    handle_tervezo_detail_key ⟨.Char 'j', ⟨false, false, false⟩⟩ =
      .TervezoScrollDown ∧
    handle_tervezo_detail_key ⟨.Char 'k', ⟨false, false, false⟩⟩ =
      .TervezoScrollUp ∧
    handle_tervezo_detail_key ⟨.Char 'J', ⟨false, false, false⟩⟩ = .MoveDown ∧
    handle_tervezo_detail_key ⟨.Char 'K', ⟨false, false, false⟩⟩ = .MoveUp ∧
    handle_tervezo_detail_key ⟨.Enter, ⟨false, false, false⟩⟩ =
      .TervezoToggleExpand ∧
    handle_tervezo_detail_key ⟨.Char 's', ⟨false, false, false⟩⟩ =
      .TervezoSsh ∧
    handle_tervezo_detail_key ⟨.Char 'r', ⟨false, false, false⟩⟩ =
      .TervezoRefreshDetail := by
  decide

/-! ## Claim C6 — resize propagation in Terminal modes

`run_loop` (src/main.rs lines 242-252) resizes the active PTY to
`rows.saturating_sub(2)` rows — not `rows - 1` as claimed.  (The terminal
view reserves two chrome lines: the tab bar and the status footer,
src/ui/terminal_view.rs lines 18-23.) -/

/-- The Resize-event handling of `run_loop` (src/main.rs lines 242-252):
the `(rows, cols)` pair passed to `resize_active`, or `none` when the
view mode is not a Terminal mode. -/
def resizePtyArgs (mode : ViewMode) (cols rows : Nat) : Option (Nat × Nat) :=
  match mode with
  | .Terminal | .TerminalQSwitcher => some (rows - 2, cols)
  | _ => none

/-- C6 counterexample: in Terminal mode, Resize(cols=120, rows=40) resizes
the active PTY to (rows=38, cols=120), not (39, 120) as claimed. -/
theorem c6_resize_counterexample :
    resizePtyArgs .Terminal 120 40 = some (38, 120) ∧
    resizePtyArgs .Terminal 120 40 ≠ some (39, 120) := by
  decide

/-- C6 amended: for every Resize event received in a Terminal mode with
terminal dimensions (cols, rows), the active PTY is resized to rows-2 rows
and cols columns; outside the Terminal modes no PTY resize happens. -/
theorem c6_resize_amended (mode : ViewMode) (cols rows : Nat) :
    (mode = .Terminal ∨ mode = .TerminalQSwitcher →
      resizePtyArgs mode cols rows = some (rows - 2, cols)) ∧
    (mode ≠ .Terminal → mode ≠ .TerminalQSwitcher →
      resizePtyArgs mode cols rows = none) := by
  constructor
  · rintro (h | h) <;> subst h <;> rfl
  · intro hT hTQ
    cases mode <;> first
      | exact absurd rfl hT
      | exact absurd rfl hTQ
      | rfl

/-- Witness for the amended C6 at the claim's concrete dimensions. -/
theorem c6_resize_amended_witness :
    (ViewMode.Terminal = .Terminal ∨ ViewMode.Terminal = .TerminalQSwitcher) ∧
    resizePtyArgs .Terminal 120 40 = some (38, 120) :=
  ⟨Or.inl rfl, (c6_resize_amended .Terminal 120 40).1 (Or.inl rfl)⟩

/-! ## Discovery dedupe and sort — `src/session/discovery.rs` lines 179-196

`discover_all` builds `seen_sessions : HashMap<String, Session>` keyed by
the project cwd, then collects the values and sorts them.  The map is
modelled as its value list with pairwise-distinct cwds; value iteration
order is irrelevant because the result is sorted afterwards. -/

/-- One transcript's insertion into `seen_sessions`
(src/session/discovery.rs lines 179-187): keep the existing entry unless
the new session's `last_activity` is strictly greater. -/
def dedupeStep (seen : List Session) (s : Session) : List Session :=
  match seen.find? (fun ex => ex.cwd == s.cwd) with
  | none => seen ++ [s]
  | some ex =>
      if ex.last_activity < s.last_activity then
        seen.map (fun ex2 => if ex2.cwd == s.cwd then s else ex2)
      else seen

/-- The whole dedupe pass over the parsed transcripts. -/
def discoverDedupe (transcripts : List Session) : List Session :=
  transcripts.foldl dedupeStep []

/-- The final result: dedupe then
`sessions.sort_by(|a, b| b.last_activity.cmp(&a.last_activity))`
(src/session/discovery.rs lines 193-194), i.e. a stable sort descending
by last activity. -/
def discoverResult (transcripts : List Session) : List Session :=
  (discoverDedupe transcripts).mergeSort
    (fun a b => decide (b.last_activity ≤ a.last_activity))

/-- The invariant carried through the dedupe fold: distinct cwds, each
kept session is a processed transcript maximal for its cwd, and every
processed cwd is represented. -/
def DedupeInv (processed seen : List Session) : Prop :=
  (seen.map (fun s => s.cwd)).Nodup ∧
  (∀ s ∈ seen, s ∈ processed ∧
    ∀ t ∈ processed, t.cwd = s.cwd → t.last_activity ≤ s.last_activity) ∧
  (∀ t ∈ processed, ∃ s ∈ seen, s.cwd = t.cwd)

theorem dedupeStep_inv {processed seen : List Session} (x : Session)
    (h : DedupeInv processed seen) :
    DedupeInv (processed ++ [x]) (dedupeStep seen x) := by
  obtain ⟨hnd, hmax, hcov⟩ := h
  cases hfind : seen.find? (fun ex => ex.cwd == x.cwd) with
  | none =>
      have hd : dedupeStep seen x = seen ++ [x] := by
        unfold dedupeStep; rw [hfind]
      rw [hd]
      have hnone : ∀ ex ∈ seen, ¬ ex.cwd = x.cwd := by
        intro ex hex heq
        have := List.find?_eq_none.mp hfind ex hex
        simp [heq] at this
      refine ⟨?_, ?_, ?_⟩
      · rw [List.map_append, List.nodup_append]
        refine ⟨hnd, by simp, ?_⟩
        intro a ha hb
        simp only [List.map_cons, List.map_nil, List.mem_singleton] at hb
        obtain ⟨ex, hex, hexc⟩ := List.mem_map.mp ha
        exact hnone ex hex (hexc.trans hb)
      · intro s hs
        rcases List.mem_append.mp hs with hs | hs
        · obtain ⟨hmem, hbound⟩ := hmax s hs
          refine ⟨List.mem_append.mpr (Or.inl hmem), ?_⟩
          intro t ht hct
          rcases List.mem_append.mp ht with ht | ht
          · exact hbound t ht hct
          · have hx := List.mem_singleton.mp ht
            rw [hx] at hct
            exact absurd hct.symm (hnone s hs)
        · have hx := List.mem_singleton.mp hs
          refine ⟨List.mem_append.mpr (Or.inr (by simp [hx])), ?_⟩
          intro t ht hct
          rcases List.mem_append.mp ht with ht | ht
          · obtain ⟨s', hs', hsc⟩ := hcov t ht
            rw [hx] at hct
            exact absurd (hsc.trans hct) (hnone s' hs')
          · have hx2 := List.mem_singleton.mp ht
            rw [hx, hx2]
      · intro t ht
        rcases List.mem_append.mp ht with ht | ht
        · obtain ⟨s', hs', hsc⟩ := hcov t ht
          exact ⟨s', List.mem_append.mpr (Or.inl hs'), hsc⟩
        · have hx := List.mem_singleton.mp ht
          exact ⟨x, List.mem_append.mpr (Or.inr (by simp)), by rw [hx]⟩
  | some ex =>
      have hexmem : ex ∈ seen := List.mem_of_find?_eq_some hfind
      have hexcwd : ex.cwd = x.cwd := by
        have := List.find?_some hfind
        simpa using this
      by_cases hlt : ex.last_activity < x.last_activity
      · have hd : dedupeStep seen x =
            seen.map (fun ex2 => if ex2.cwd == x.cwd then x else ex2) := by
          unfold dedupeStep; rw [hfind]; exact if_pos hlt
        rw [hd]
        have hmapcwd :
            (seen.map (fun ex2 => if ex2.cwd == x.cwd then x else ex2)).map
                (fun s => s.cwd) = seen.map (fun s => s.cwd) := by
          rw [List.map_map]
          apply List.map_congr_left
          intro a _
          by_cases hc : a.cwd = x.cwd
          · simp [hc]
          · simp [hc]
        refine ⟨?_, ?_, ?_⟩
        · rw [hmapcwd]; exact hnd
        · intro s hs
          obtain ⟨e, he, heq⟩ := List.mem_map.mp hs
          by_cases hc : e.cwd = x.cwd
          · rw [if_pos (by simpa using hc)] at heq
            refine ⟨List.mem_append.mpr (Or.inr (by simp [heq])), ?_⟩
            intro t ht hct
            rcases List.mem_append.mp ht with ht | ht
            · have hb := (hmax ex hexmem).2 t ht
                (by rw [hct, ← heq, hexcwd])
              calc t.last_activity ≤ ex.last_activity := hb
                _ ≤ x.last_activity := le_of_lt hlt
                _ = s.last_activity := by rw [heq]
            · have hx2 := List.mem_singleton.mp ht
              rw [hx2, ← heq]
          · rw [if_neg (by simpa using hc)] at heq
            rw [← heq]
            obtain ⟨hmem, hbound⟩ := hmax e he
            refine ⟨List.mem_append.mpr (Or.inl hmem), ?_⟩
            intro t ht hct
            rcases List.mem_append.mp ht with ht | ht
            · exact hbound t ht hct
            · have hx2 := List.mem_singleton.mp ht
              rw [hx2] at hct
              exact absurd hct.symm hc
        · intro t ht
          rcases List.mem_append.mp ht with ht | ht
          · obtain ⟨s', hs', hsc⟩ := hcov t ht
            refine ⟨if s'.cwd == x.cwd then x else s',
              List.mem_map.mpr ⟨s', hs', rfl⟩, ?_⟩
            by_cases hc : s'.cwd = x.cwd
            · rw [if_pos (by simpa using hc)]
              rw [← hc, hsc]
            · rw [if_neg (by simpa using hc)]
              exact hsc
          · have hx := List.mem_singleton.mp ht
            refine ⟨if ex.cwd == x.cwd then x else ex,
              List.mem_map.mpr ⟨ex, hexmem, rfl⟩, ?_⟩
            rw [if_pos (by simpa using hexcwd), hx]
      · have hd : dedupeStep seen x = seen := by
          unfold dedupeStep; rw [hfind]; exact if_neg hlt
        rw [hd]
        refine ⟨hnd, ?_, ?_⟩
        · intro s hs
          obtain ⟨hmem, hbound⟩ := hmax s hs
          refine ⟨List.mem_append.mpr (Or.inl hmem), ?_⟩
          intro t ht hct
          rcases List.mem_append.mp ht with ht | ht
          · exact hbound t ht hct
          · have hx := List.mem_singleton.mp ht
            have hse : s = ex := by
              apply List.inj_on_of_nodup_map hnd hs hexmem
              rw [hexcwd, ← hx, hct]
            rw [hx, hse]
            exact le_of_not_lt hlt
        · intro t ht
          rcases List.mem_append.mp ht with ht | ht
          · exact hcov t ht
          · have hx := List.mem_singleton.mp ht
            exact ⟨ex, hexmem, by rw [hexcwd, hx]⟩

theorem discoverDedupe_inv (ts : List Session) :
    DedupeInv ts (discoverDedupe ts) := by
  suffices h : ∀ (rest processed seen : List Session),
      DedupeInv processed seen →
      DedupeInv (processed ++ rest) (rest.foldl dedupeStep seen) by
    have := h ts [] [] ⟨by simp, by simp, by simp⟩
    simpa [discoverDedupe] using this
  intro rest
  induction rest with
  | nil => intro processed seen h; simpa using h
  | cons t rest ih =>
      intro processed seen h
      have h2 := ih (processed ++ [t]) (dedupeStep seen t) (dedupeStep_inv t h)
      simpa [List.append_assoc] using h2

/-! ## Claim C8 — at most one session per cwd, max last-activity, sorted -/

/-- C8: the discovery result has pairwise-distinct cwds; every retained
session is one of the parsed transcripts and has the maximum last-activity
among its cwd's transcripts; every transcript's cwd is represented; and
the result is sorted in descending order of last-activity. -/
theorem c8_discovery_dedupe_sorted (ts : List Session) :
    ((discoverResult ts).map (fun s => s.cwd)).Nodup ∧
    (∀ s ∈ discoverResult ts, s ∈ ts ∧
      ∀ t ∈ ts, t.cwd = s.cwd → t.last_activity ≤ s.last_activity) ∧
    (∀ t ∈ ts, ∃ s ∈ discoverResult ts, s.cwd = t.cwd) ∧
    (discoverResult ts).Pairwise
      (fun a b => b.last_activity ≤ a.last_activity) := by
  obtain ⟨hnd, hmax, hcov⟩ := discoverDedupe_inv ts
  have hperm : (discoverResult ts).Perm (discoverDedupe ts) :=
    List.mergeSort_perm (discoverDedupe ts) _
  refine ⟨?_, ?_, ?_, ?_⟩
  · exact (List.Perm.nodup_iff (hperm.map (fun s => s.cwd))).mpr hnd
  · intro s hs
    exact hmax s (hperm.mem_iff.mp hs)
  · intro t ht
    obtain ⟨s, hs, hsc⟩ := hcov t ht
    exact ⟨s, hperm.mem_iff.mpr hs, hsc⟩
  · have hs := @List.sorted_mergeSort Session
      (fun a b : Session => decide (b.last_activity ≤ a.last_activity))
      (fun a b c hab hbc => by
        simp only [decide_eq_true_eq] at *
        exact le_trans hbc hab)
      (fun a b => by
        simp only [Bool.or_eq_true, decide_eq_true_eq]
        exact le_total b.last_activity a.last_activity)
      (discoverDedupe ts)
    exact hs.imp (by intro a b h; simpa using h)

/-- Two concrete transcripts sharing a cwd, used in the C8 witness. -/
def sessionCwdEx (last : Int) : Session :=
  { sessionEx none with cwd := "/a/alpha", last_activity := last }

/-- Witness for C8: with two transcripts for the same cwd, the one with the
later last-activity is retained and bounds the other. -/
theorem c8_discovery_dedupe_sorted_witness :
    sessionCwdEx 2 ∈ discoverResult [sessionCwdEx 1, sessionCwdEx 2] ∧
    sessionCwdEx 1 ∈ [sessionCwdEx 1, sessionCwdEx 2] ∧
    (sessionCwdEx 1).cwd = (sessionCwdEx 2).cwd ∧
    (sessionCwdEx 1).last_activity ≤ (sessionCwdEx 2).last_activity := by
  have hres : discoverResult [sessionCwdEx 1, sessionCwdEx 2] =
      [sessionCwdEx 2] := by
    simp [discoverResult, discoverDedupe, dedupeStep, List.mergeSort,
      sessionCwdEx, sessionEx]
  have hmem : sessionCwdEx 2 ∈ discoverResult [sessionCwdEx 1, sessionCwdEx 2] := by
    rw [hres]; exact List.mem_singleton.mpr rfl
  refine ⟨hmem, by simp, rfl, ?_⟩
  exact ((c8_discovery_dedupe_sorted [sessionCwdEx 1, sessionCwdEx 2]).2.1
      (sessionCwdEx 2) hmem).2 (sessionCwdEx 1) (by simp) rfl

/-! ## Remote timeline messages — `src/tervezo/models.rs` -/

/-- Minimal JSON value model for the loosely-typed `serde_json::Value`
fields carried by timeline messages (numbers as `Int`; none of the
modelled code paths computes with them). -/
inductive Json where
  | null
  | bool (b : Bool)
  | num (n : Int)
  | str (s : String)
  | arr (elems : List Json)
  | obj (fields : List (String × Json))

/-- `TestAdded` (src/tervezo/models.rs lines 620-629). -/
structure TestAdded where
  file : Option String
  count : Option Nat
  critical_path : Option Bool

/-- `UncoveredPath` (src/tervezo/models.rs lines 631-640). -/
structure UncoveredPath where
  name : Option String
  detail : Option String
  verification_method : Option String

/-- `TimelineMessage` (src/tervezo/models.rs lines 126-223): a
loosely-typed record of optional fields. -/
structure TimelineMessage where
  id : Option String
  timestamp : Option Int
  msg_type : Option String
  reason : Option String
  to_status : Option String
  from_status : Option String
  text : Option String
  message : Option String
  content : Option String
  output : Option String
  details : Option String
  status : Option String
  tool_name : Option String
  parameters : Option Json
  file_path : Option String
  diff : Option String
  thinking : Option String
  thought : Option String
  summary : Option Json
  title : Option String
  todos : Option (List Json)
  event : Option String
  iteration : Option Nat
  tool_call_id : Option String
  is_error : Option Bool
  operation : Option String
  success : Option Bool
  branch : Option String
  commit_hash : Option String
  commit_message : Option String
  pr_url : Option String
  pr_number : Option Nat
  severity : Option String
  is_partial : Option Bool
  tests_added : Option (List TestAdded)
  approach : Option String
  uncovered_paths : Option (List UncoveredPath)

/-- A timeline message with every field absent, used in witnesses. -/
def emptyTimelineMessage : TimelineMessage where
  id := none
  timestamp := none
  msg_type := none
  reason := none
  to_status := none
  from_status := none
  text := none
  message := none
  content := none
  output := none
  details := none
  status := none
  tool_name := none
  parameters := none
  file_path := none
  diff := none
  thinking := none
  thought := none
  summary := none
  title := none
  todos := none
  event := none
  iteration := none
  tool_call_id := none
  is_error := none
  operation := none
  success := none
  branch := none
  commit_hash := none
  commit_message := none
  pr_url := none
  pr_number := none
  severity := none
  is_partial := none
  tests_added := none
  approach := none
  uncovered_paths := none

/-! ## Timeline bound — `src/app.rs`

`TervezoDetailMsg::TimelineAppend` handling in
`App::drain_tervezo_detail_messages` (src/app.rs lines 512-518) and
`SseMessage::Event` handling in `App::drain_sse_messages`
(src/app.rs lines 565-571) both run the same push:
`timeline.push(msg); if timeline.len() > 1000 { timeline.drain(..len-1000) }`. -/

/-- The capped timeline push shared by both drain sites. -/
def timelinePush (timeline : List TimelineMessage) (msg : TimelineMessage) :
    List TimelineMessage :=
  let t := timeline ++ [msg]
  if 1000 < t.length then t.drop (t.length - 1000) else t

theorem timelinePush_eq_drop (t : List TimelineMessage) (m : TimelineMessage) :
    timelinePush t m = (t ++ [m]).drop ((t.length + 1) - 1000) := by
  unfold timelinePush
  have hl : (t ++ [m]).length = t.length + 1 := by
    simp
  by_cases h : 1000 < (t ++ [m]).length
  · rw [if_pos h, hl]
  · rw [if_neg h]
    have : t.length + 1 - 1000 = 0 := by
      simp only [List.length_append, List.length_cons, List.length_nil] at h
      omega
    rw [this, List.drop_zero]

theorem timelinePush_length (t : List TimelineMessage) (m : TimelineMessage) :
    (timelinePush t m).length = min (t.length + 1) 1000 := by
  rw [timelinePush_eq_drop, List.length_drop]
  simp only [List.length_append, List.length_cons, List.length_nil]
  omega

theorem timelinePush_foldl (ms : List TimelineMessage) :
    ∀ t : List TimelineMessage, t.length ≤ 1000 →
      ms.foldl timelinePush t =
        (t ++ ms).drop ((t.length + ms.length) - 1000) := by
  induction ms with
  | nil =>
      intro t ht
      simp only [List.foldl_nil, List.length_nil, Nat.add_zero, List.append_nil]
      rw [Nat.sub_eq_zero_of_le ht, List.drop_zero]
  | cons m ms ih =>
      intro t ht
      rw [List.foldl_cons,
        ih (timelinePush t m) (by rw [timelinePush_length]; omega)]
      rw [timelinePush_length, timelinePush_eq_drop]
      have hle : (t.length + 1) - 1000 ≤ (t ++ [m]).length := by
        simp only [List.length_append, List.length_cons, List.length_nil]
        omega
      rw [← List.drop_append_of_le_length hle]
      rw [List.drop_drop]
      have harr : (t ++ [m]) ++ ms = t ++ m :: ms := by
        rw [List.append_assoc, List.singleton_append]
      rw [harr]
      have harith : (t.length + 1 - 1000) + ((t.length + 1) ⊓ 1000
          + ms.length - 1000) = t.length + (m :: ms).length - 1000 := by
        simp only [List.length_cons]
        omega
      rw [harith]

/-! ## Claim C7 — the timeline never exceeds 1000 entries -/

/-- C7: a timeline push always leaves at most 1000 entries (oldest drained
on overflow), and pushing 2000 messages into an empty timeline leaves
exactly the most recent 1000 in order. -/
theorem c7_timeline_bound (ms : List TimelineMessage) :
    (∀ t m, (timelinePush t m).length ≤ 1000) ∧
    (ms.length = 2000 →
      (ms.foldl timelinePush []).length = 1000 ∧
      ms.foldl timelinePush [] = ms.drop 1000) := by
  constructor
  · intro t m
    rw [timelinePush_length]
    omega
  · intro h2000
    have hfold := timelinePush_foldl ms [] (by simp)
    simp only [List.length_nil, List.nil_append, Nat.zero_add] at hfold
    rw [hfold, h2000]
    constructor
    · rw [List.length_drop, h2000]
    · rfl

/-- Witness for C7 with 2000 copies of the empty message. -/
theorem c7_timeline_bound_witness :
    (List.replicate 2000 emptyTimelineMessage).length = 2000 ∧
    ((List.replicate 2000 emptyTimelineMessage).foldl timelinePush []).length
      = 1000 ∧
    (List.replicate 2000 emptyTimelineMessage).foldl timelinePush [] =
      (List.replicate 2000 emptyTimelineMessage).drop 1000 :=
  ⟨by rw [List.length_replicate],
    ((c7_timeline_bound (List.replicate 2000 emptyTimelineMessage)).2
      (by rw [List.length_replicate])).1,
    ((c7_timeline_bound (List.replicate 2000 emptyTimelineMessage)).2
      (by rw [List.length_replicate])).2⟩

/-! ## Remote implementations — `src/tervezo/models.rs` -/

/-- `ImplementationStatus` (src/tervezo/models.rs lines 4-15). -/
inductive ImplementationStatus where
  | Pending
  | Queued
  | Running
  | Completed
  | Merged
  | Failed
  | Stopped
  | Cancelled
deriving DecidableEq, Repr

/-- `ImplementationStatus::label` (src/tervezo/models.rs lines 17-29). -/
def ImplementationStatus.label : ImplementationStatus → String
  | .Pending => "Pending"
  | .Queued => "Queued"
  | .Running => "Running"
  | .Completed => "Done"
  | .Merged => "Merged"
  | .Failed => "Failed"
  | .Stopped => "Stopped"
  | .Cancelled => "Cancelled"

/-- `Implementation` (src/tervezo/models.rs lines 50-80); `f64` cost as
`ℚ`, timestamps as `Int`. -/
structure Implementation where
  id : String
  title : Option String
  status : ImplementationStatus
  branch : Option String
  repo_url : Option String
  created_at : Option Int
  updated_at : Option Int
  estimated_cost_usd : Option ℚ
  total_tokens : Option Nat
  message_count : Option Nat
  pr_url : Option String
  pr_number : Option Nat
  pr_status : Option String
  mode : Option String
deriving DecidableEq, Repr

/-- `Implementation::display_name` (src/tervezo/models.rs lines 83-85). -/
def Implementation.display_name (i : Implementation) : String :=
  i.title.getD "(untitled)"

/-- `FileChange` (src/tervezo/models.rs lines 493-508). -/
structure FileChange where
  path : Option String
  diff : Option String
  status : Option String
  additions : Option Nat
  deletions : Option Nat
  changes : Option Nat
deriving DecidableEq, Repr

/-- `SshCredentials` (src/tervezo/models.rs lines 517-530). -/
structure SshCredentials where
  host : String
  port : Option Nat
  username : Option String
  ssh_command : String
  sandbox_id : Option String
  sandbox_url : Option String
deriving DecidableEq, Repr

/-! ## App state — `src/app.rs` -/

/-- `SortColumn` (src/app.rs lines 30-37). -/
inductive SortColumn where
  | LastActive
  | Project
  | Cost
  | Status
  | Tokens
deriving DecidableEq, Repr

/-- `SortColumn::next` (src/app.rs lines 40-48). -/
def SortColumn.next : SortColumn → SortColumn
  | .LastActive => .Project
  | .Project => .Cost
  | .Cost => .Status
  | .Status => .Tokens
  | .Tokens => .LastActive

/-- Rust `str::to_lowercase`, modelled character-wise with `Char.toLower`
(the session fields involved are ASCII). -/
def strToLower (s : String) : String :=
  String.mk (s.data.map Char.toLower)

/-- `SessionEntry` (src/app.rs lines 61-65). -/
inductive SessionEntry where
  | Local (s : Session)
  | Remote (i : Implementation)
deriving DecidableEq, Repr

/-- `SessionEntry::display_name` (src/app.rs lines 75-80). -/
def SessionEntry.display_name : SessionEntry → String
  | .Local s => s.project_name
  | .Remote i => i.display_name

/-- `SessionEntry::matches_filter` (src/app.rs lines 100-133). -/
def SessionEntry.matches_filter (e : SessionEntry) (query : String) : Bool :=
  if query.isEmpty then true
  else
    let q := strToLower query
    match e with
    | .Local s =>
        strContainsStr (strToLower s.project_name) q
        || strContainsStr (strToLower s.cwd) q
        || strContainsStr (strToLower (s.git_branch.getD "")) q
        || strContainsStr (strToLower (s.model.getD "")) q
        || strContainsStr (strToLower s.status.label) q
    | .Remote i =>
        strContainsStr (strToLower i.display_name) q
        || strContainsStr (strToLower (i.branch.getD "")) q
        || strContainsStr (strToLower (i.repo_url.getD "")) q
        || strContainsStr (strToLower i.status.label) q
        || strContainsStr "tervezo" q

/-- `SessionEntry::estimated_cost` (src/app.rs lines 142-147). -/
def SessionEntry.estimated_cost : SessionEntry → Option ℚ
  | .Local s => some s.estimated_cost_usd
  | .Remote i => i.estimated_cost_usd

/-- `SessionEntry::total_tokens` (src/app.rs lines 149-154). -/
def SessionEntry.entry_total_tokens : SessionEntry → Option Nat
  | .Local s => some s.total_tokens
  | .Remote i => i.total_tokens

/-- `SessionEntry::sort_key_last_activity` (src/app.rs lines 177-182);
`DateTime::default()` is the epoch, i.e. 0. -/
def SessionEntry.sort_key_last_activity : SessionEntry → Int
  | .Local s => s.last_activity
  | .Remote i => (i.updated_at.or i.created_at).getD 0

/-- `SessionEntry::sort_key_cost` (src/app.rs lines 188-190). -/
def SessionEntry.sort_key_cost (e : SessionEntry) : ℚ :=
  e.estimated_cost.getD 0

/-- `SessionEntry::sort_key_status` (src/app.rs lines 192-208). -/
def SessionEntry.sort_key_status : SessionEntry → Nat
  | .Local s =>
      match s.status with
      | .Thinking => 0
      | .Active => 1
      | .Idle => 2
      | .Dead => 3
  | .Remote i =>
      match i.status with
      | .Running => 1
      | .Pending | .Queued => 2
      | .Completed | .Merged => 3
      | .Failed => 4
      | .Stopped | .Cancelled => 5

/-- `SessionEntry::sort_key_tokens` (src/app.rs lines 210-212). -/
def SessionEntry.sort_key_tokens (e : SessionEntry) : Nat :=
  e.entry_total_tokens.getD 0

/-- The comparator of `App::apply_sort` (src/app.rs lines 622-647) for each
column, as a non-strict Boolean order for the stable sort:
`sort_by_key(Reverse(k))` sorts ascending on the reversed key, i.e.
`k b ≤ k a`; Project sorts ascending; Cost is descending via
`partial_cmp` (total here: costs are rationals). -/
def sortLe (col : SortColumn) (a b : SessionEntry) : Bool :=
  match col with
  | .LastActive => decide (b.sort_key_last_activity ≤ a.sort_key_last_activity)
  | .Project => decide (a.display_name ≤ b.display_name)
  | .Cost => decide (b.sort_key_cost ≤ a.sort_key_cost)
  | .Status => decide (a.sort_key_status ≤ b.sort_key_status)
  | .Tokens => decide (b.sort_key_tokens ≤ a.sort_key_tokens)

/-- `TervezoTab` (src/app.rs lines 215-221). -/
inductive TervezoTab where
  | Plan
  | Changes
  | TestOutput
  | Analysis
deriving DecidableEq, Repr

/-- `TervezoDetailState` (src/app.rs lines 268-288); the two `HashSet`s
are modelled as member lists. -/
structure TervezoDetailState where
  implementation_id : String
  implementation : Implementation
  active_tab : TervezoTab
  timeline : List TimelineMessage
  timeline_scroll : Nat
  plan_content : Option String
  analysis_content : Option String
  changes : Option (List FileChange)
  changes_selected_file : Nat
  changes_expanded : List Nat
  changes_diff_scroll : Nat
  test_output : Option String
  ssh_creds : Option SshCredentials
  loading : List TervezoTab
  plan_scroll : Nat
  changes_scroll : Nat
  test_scroll : Nat
  analysis_scroll : Nat
  timeline_at_bottom : Bool

/-- `TervezoDetailState::scroll_active_tab_up` (src/app.rs lines 326-348);
`saturating_sub` is `Nat` subtraction. -/
def TervezoDetailState.scroll_active_tab_up (st : TervezoDetailState) :
    TervezoDetailState :=
  match st.active_tab with
  | .Plan => { st with plan_scroll := st.plan_scroll - 1 }
  | .Changes =>
      if st.changes_expanded.contains st.changes_selected_file then
        { st with changes_diff_scroll := st.changes_diff_scroll - 1 }
      else
        { st with changes_selected_file := st.changes_selected_file - 1,
                  changes_diff_scroll := 0 }
  | .TestOutput => { st with test_scroll := st.test_scroll - 1 }
  | .Analysis => { st with analysis_scroll := st.analysis_scroll - 1 }

/-- `TervezoDetailState::scroll_active_tab_down` (src/app.rs
lines 350-373). -/
def TervezoDetailState.scroll_active_tab_down (st : TervezoDetailState) :
    TervezoDetailState :=
  match st.active_tab with
  | .Plan => { st with plan_scroll := st.plan_scroll + 1 }
  | .Changes =>
      if st.changes_expanded.contains st.changes_selected_file then
        { st with changes_diff_scroll := st.changes_diff_scroll + 1 }
      else
        let mx := (st.changes.map (fun c => c.length - 1)).getD 0
        if st.changes_selected_file < mx then
          { st with changes_selected_file := st.changes_selected_file + 1,
                    changes_diff_scroll := 0 }
        else st
  | .TestOutput => { st with test_scroll := st.test_scroll + 1 }
  | .Analysis => { st with analysis_scroll := st.analysis_scroll + 1 }

/-- `ConfigItemKind` (src/session/config.rs lines 20-27). -/
inductive ConfigItemKind where
  | SectionHeader
  | Category
  | FileExists
  | FileMissing
  | MemoryFile
  | SectionTotal
deriving DecidableEq, Repr

/-- `ConfigItem` (src/session/config.rs lines 11-17). -/
structure ConfigItem where
  label : String
  path : Option String
  kind : ConfigItemKind
  tokens : Option Nat
  always_loaded : Option Bool
deriving DecidableEq, Repr

/-- The `App` state fields involved in selection, filtering, sorting and
the cursor-moving operations (src/app.rs lines 387-416).  The I/O handles
(discovery, store, fetchers, terminal manager, channels) do not affect the
modelled state transitions and are abstracted into the inputs of the
operations that consume them. -/
structure AppModel where
  local_sessions : List Session
  entries : List SessionEntry
  filtered : List Nat
  selected : Nat
  view_mode : ViewMode
  sort_column : SortColumn
  filter_query : String
  command_input : String
  detail_items : List ConfigItem
  detail_cursor : Nat
  detail_preview : Option (String × String)
  detail_preview_scroll : Nat
  tervezo_detail : Option TervezoDetailState
  log_scroll : Nat
  should_quit : Bool

/-- The body of `App::apply_filter` (src/app.rs lines 649-658):
`enumerate → filter(matches_filter) → map(index)`. -/
def filteredIndexList (entries : List SessionEntry) (query : String) :
    List Nat :=
  (entries.enum.filter (fun p => p.2.matches_filter query)).map Prod.fst

/-- `App::apply_filter` (src/app.rs lines 649-658). -/
def AppModel.apply_filter (a : AppModel) : AppModel :=
  let query := strToLower a.filter_query
  { a with filtered := filteredIndexList a.entries query }

/-- `App::apply_sort` (src/app.rs lines 622-647): a stable sort of
`entries` by the current column's comparator. -/
def AppModel.apply_sort (a : AppModel) : AppModel :=
  { a with entries := a.entries.mergeSort (sortLe a.sort_column) }

/-- `App::merge_entries` (src/app.rs lines 600-616): local sessions as
`Local` entries followed by the fetcher's snapshot as `Remote` entries
(the snapshot is an input here; a missing fetcher is the empty list). -/
def AppModel.merge_entries (a : AppModel) (remote : List Implementation) :
    AppModel :=
  { a with entries :=
      a.local_sessions.map SessionEntry.Local
        ++ remote.map SessionEntry.Remote }

/-- The selection clamp appearing in `App::refresh` (src/app.rs lines
474-476) and `App::check_tervezo_dirty` (src/app.rs lines 489-491). -/
def AppModel.clamp_selected (a : AppModel) : AppModel :=
  if a.filtered.length ≤ a.selected ∧ a.filtered ≠ [] then
    { a with selected := a.filtered.length - 1 }
  else a

/-- `App::refresh` (src/app.rs lines 461-481): replace the local sessions
with the discovery result, merge, sort, filter, clamp.  The store upsert
and usage fetch are I/O without effect on this state. -/
def AppModel.refresh (a : AppModel) (discovered : List Session)
    (remote : List Implementation) : AppModel :=
  let a1 := { a with local_sessions := discovered }
  let a2 := a1.merge_entries remote
  ((a2.apply_sort).apply_filter).clamp_selected

/-- `App::check_tervezo_dirty` (src/app.rs lines 483-496): on a dirty
fetcher snapshot, merge, sort, filter, clamp; otherwise no change. -/
def AppModel.check_tervezo_dirty (a : AppModel) (dirty : Bool)
    (remote : List Implementation) : AppModel :=
  if dirty then
    let a2 := a.merge_entries remote
    ((a2.apply_sort).apply_filter).clamp_selected
  else a

/-- `App::cycle_sort` (src/app.rs lines 784-788). -/
def AppModel.cycle_sort (a : AppModel) : AppModel :=
  let a1 := { a with sort_column := a.sort_column.next }
  (a1.apply_sort).apply_filter

/-- `App::filter_push` (src/app.rs lines 876-880). -/
def AppModel.filter_push (a : AppModel) (c : Char) : AppModel :=
  let a2 := ({ a with filter_query := a.filter_query.push c }).apply_filter
  { a2 with selected := 0 }

/-- `App::filter_pop` (src/app.rs lines 882-886); `String::pop` drops the
last character. -/
def AppModel.filter_pop (a : AppModel) : AppModel :=
  let a2 :=
    ({ a with filter_query := a.filter_query.dropRight 1 }).apply_filter
  { a2 with selected := 0 }

/-- `App::move_up` (src/app.rs lines 790-812). -/
def AppModel.move_up (a : AppModel) : AppModel :=
  if a.view_mode = .Detail then
    if a.detail_preview.isSome then
      { a with detail_preview_scroll := a.detail_preview_scroll - 1 }
    else if 0 < a.detail_cursor then
      { a with detail_cursor := a.detail_cursor - 1 }
    else a
  else if a.view_mode = .TervezoDetail then
    match a.tervezo_detail with
    | some st => { a with tervezo_detail := some st.scroll_active_tab_up }
    | none => a
  else if a.view_mode = .Log then
    { a with log_scroll := a.log_scroll - 1 }
  else if 0 < a.selected then
    { a with selected := a.selected - 1 }
  else a

/-- `App::move_down` (src/app.rs lines 814-844). -/
def AppModel.move_down (a : AppModel) : AppModel :=
  if a.view_mode = .Detail then
    if a.detail_preview.isSome then
      { a with detail_preview_scroll := a.detail_preview_scroll + 1 }
    else if a.detail_cursor + 1 < a.detail_items.length then
      { a with detail_cursor := a.detail_cursor + 1 }
    else a
  else if a.view_mode = .TervezoDetail then
    match a.tervezo_detail with
    | some st => { a with tervezo_detail := some st.scroll_active_tab_down }
    | none => a
  else if a.view_mode = .Log then
    { a with log_scroll := a.log_scroll + 1 }
  else
    let limit :=
      if a.view_mode = .QSwitcher ∨ a.view_mode = .TerminalQSwitcher then
        min a.filtered.length 9
      else a.filtered.length
    if a.selected + 1 < limit then { a with selected := a.selected + 1 }
    else a

/-- `App::move_to_top` (src/app.rs lines 846-852). -/
def AppModel.move_to_top (a : AppModel) : AppModel :=
  if a.view_mode = .Log then { a with log_scroll := 0 }
  else { a with selected := 0 }

/-- `App::move_to_bottom` (src/app.rs lines 854-862); the log entry count
read from the global log buffer is an input. -/
def AppModel.move_to_bottom (a : AppModel) (log_entry_count : Nat) :
    AppModel :=
  if a.view_mode = .Log then
    { a with log_scroll := log_entry_count - 1 }
  else if a.filtered ≠ [] then
    { a with selected := a.filtered.length - 1 }
  else a

/-- `App::selected_session` (src/app.rs lines 667-671). -/
def AppModel.selected_session (a : AppModel) : Option SessionEntry :=
  (a.filtered.get? a.selected).bind (fun i => a.entries.get? i)

/-! ## Claim C10 — the selection cursor invariant -/

/-- The invariant: `filtered` is exactly the filter of the current entries
by the current query, and the cursor is in range whenever the filter is
non-empty. -/
def AppInv (a : AppModel) : Prop :=
  a.filtered = filteredIndexList a.entries (strToLower a.filter_query) ∧
  (a.filtered ≠ [] → a.selected < a.filtered.length)

theorem filteredIndexList_mem_lt (l : List SessionEntry) (q : String) :
    ∀ i ∈ filteredIndexList l q, i < l.length := by
  intro i hi
  unfold filteredIndexList at hi
  obtain ⟨p, hp, hfst⟩ := List.mem_map.mp hi
  obtain ⟨hpe, _⟩ := List.mem_filter.mp hp
  obtain ⟨j, e⟩ := p
  have hb := List.mem_enumFrom (show (j, e) ∈ List.enumFrom 0 l from hpe)
  have : j = i := hfst
  omega

theorem filteredIndexList_length_aux (q : String) (l : List SessionEntry) :
    ∀ n : Nat,
      (((List.enumFrom n l).filter
          (fun p => p.2.matches_filter q)).map Prod.fst).length =
        l.countP (fun e => e.matches_filter q) := by
  induction l with
  | nil => intro n; rfl
  | cons e l ih =>
      intro n
      rw [List.enumFrom_cons, List.filter_cons, List.countP_cons, ← ih (n + 1)]
      by_cases h : e.matches_filter q
      · simp [h]
      · simp [h]

theorem filteredIndexList_length (l : List SessionEntry) (q : String) :
    (filteredIndexList l q).length =
      l.countP (fun e => e.matches_filter q) :=
  filteredIndexList_length_aux q l 0

theorem filteredIndexList_mergeSort_length (l : List SessionEntry)
    (le : SessionEntry → SessionEntry → Bool) (q : String) :
    (filteredIndexList (l.mergeSort le) q).length =
      (filteredIndexList l q).length := by
  rw [filteredIndexList_length, filteredIndexList_length]
  exact (List.mergeSort_perm l le).countP_eq _

theorem clamp_selected_inv (a : AppModel)
    (h : a.filtered =
      filteredIndexList a.entries (strToLower a.filter_query)) :
    AppInv a.clamp_selected := by
  unfold AppModel.clamp_selected
  by_cases hc : a.filtered.length ≤ a.selected ∧ a.filtered ≠ []
  · rw [if_pos hc]
    refine ⟨h, fun hne => ?_⟩
    have hpos : 0 < a.filtered.length := List.length_pos.mpr hc.2
    show a.filtered.length - 1 < a.filtered.length
    omega
  · rw [if_neg hc]
    refine ⟨h, fun hne => ?_⟩
    by_contra hge
    exact hc ⟨Nat.le_of_not_lt hge, hne⟩

theorem sort_filter_clamp_inv (a : AppModel) :
    AppInv (((a.apply_sort).apply_filter).clamp_selected) :=
  clamp_selected_inv _ rfl

theorem refresh_inv (a : AppModel) (discovered : List Session)
    (remote : List Implementation) : AppInv (a.refresh discovered remote) :=
  sort_filter_clamp_inv _

theorem check_tervezo_dirty_inv (a : AppModel) (dirty : Bool)
    (remote : List Implementation) (h : AppInv a) :
    AppInv (a.check_tervezo_dirty dirty remote) := by
  unfold AppModel.check_tervezo_dirty
  cases dirty with
  | true => exact sort_filter_clamp_inv _
  | false => exact h

theorem filter_push_inv (a : AppModel) (c : Char) :
    AppInv (a.filter_push c) :=
  ⟨rfl, fun hne => List.length_pos.mpr hne⟩

theorem filter_pop_inv (a : AppModel) : AppInv a.filter_pop :=
  ⟨rfl, fun hne => List.length_pos.mpr hne⟩

theorem cycle_sort_inv (a : AppModel) (h : AppInv a) :
    AppInv a.cycle_sort := by
  obtain ⟨h1, h2⟩ := h
  refine ⟨rfl, fun hne => ?_⟩
  show a.selected <
    (filteredIndexList (a.entries.mergeSort (sortLe a.sort_column.next))
      (strToLower a.filter_query)).length
  rw [filteredIndexList_mergeSort_length]
  have hlen :
      (filteredIndexList (a.entries.mergeSort (sortLe a.sort_column.next))
        (strToLower a.filter_query)).length =
      (filteredIndexList a.entries (strToLower a.filter_query)).length :=
    filteredIndexList_mergeSort_length _ _ _
  have hne' : a.filtered ≠ [] := by
    intro hnil
    apply hne
    have h0 : (filteredIndexList a.entries (strToLower a.filter_query)).length
        = 0 := by rw [← h1, hnil]; rfl
    have := hlen.trans h0
    exact List.length_eq_zero.mp this
  have := h2 hne'
  rw [h1] at this
  exact this

theorem move_up_inv (a : AppModel) (h : AppInv a) : AppInv a.move_up := by
  obtain ⟨h1, h2⟩ := h
  unfold AppModel.move_up
  by_cases hd : a.view_mode = .Detail
  · rw [if_pos hd]
    by_cases hp : a.detail_preview.isSome
    · rw [if_pos hp]; exact ⟨h1, h2⟩
    · rw [if_neg hp]
      by_cases hc : 0 < a.detail_cursor
      · rw [if_pos hc]; exact ⟨h1, h2⟩
      · rw [if_neg hc]; exact ⟨h1, h2⟩
  · rw [if_neg hd]
    by_cases ht : a.view_mode = .TervezoDetail
    · rw [if_pos ht]
      cases a.tervezo_detail with
      | some st => exact ⟨h1, h2⟩
      | none => exact ⟨h1, h2⟩
    · rw [if_neg ht]
      by_cases hl : a.view_mode = .Log
      · rw [if_pos hl]; exact ⟨h1, h2⟩
      · rw [if_neg hl]
        by_cases hs : 0 < a.selected
        · rw [if_pos hs]
          refine ⟨h1, fun hne => ?_⟩
          have := h2 hne
          show a.selected - 1 < a.filtered.length
          omega
        · rw [if_neg hs]; exact ⟨h1, h2⟩

theorem move_down_inv (a : AppModel) (h : AppInv a) : AppInv a.move_down := by
  obtain ⟨h1, h2⟩ := h
  unfold AppModel.move_down
  by_cases hd : a.view_mode = .Detail
  · rw [if_pos hd]
    by_cases hp : a.detail_preview.isSome
    · rw [if_pos hp]; exact ⟨h1, h2⟩
    · rw [if_neg hp]
      by_cases hc : a.detail_cursor + 1 < a.detail_items.length
      · rw [if_pos hc]; exact ⟨h1, h2⟩
      · rw [if_neg hc]; exact ⟨h1, h2⟩
  · rw [if_neg hd]
    by_cases ht : a.view_mode = .TervezoDetail
    · rw [if_pos ht]
      cases a.tervezo_detail with
      | some st => exact ⟨h1, h2⟩
      | none => exact ⟨h1, h2⟩
    · rw [if_neg ht]
      by_cases hl : a.view_mode = .Log
      · rw [if_pos hl]; exact ⟨h1, h2⟩
      · rw [if_neg hl]
        have hlim :
            (if a.view_mode = .QSwitcher ∨ a.view_mode = .TerminalQSwitcher
              then min a.filtered.length 9 else a.filtered.length) ≤
              a.filtered.length := by
          split_ifs
          · exact min_le_left _ _
          · exact le_refl _
        by_cases hs : a.selected + 1 <
            (if a.view_mode = .QSwitcher ∨ a.view_mode = .TerminalQSwitcher
              then min a.filtered.length 9 else a.filtered.length)
        · rw [if_pos hs]
          refine ⟨h1, fun hne => ?_⟩
          show a.selected + 1 < a.filtered.length
          omega
        · rw [if_neg hs]; exact ⟨h1, h2⟩

theorem move_to_top_inv (a : AppModel) (h : AppInv a) :
    AppInv a.move_to_top := by
  obtain ⟨h1, h2⟩ := h
  unfold AppModel.move_to_top
  by_cases hl : a.view_mode = .Log
  · rw [if_pos hl]; exact ⟨h1, h2⟩
  · rw [if_neg hl]
    exact ⟨h1, fun hne => List.length_pos.mpr hne⟩

theorem move_to_bottom_inv (a : AppModel) (n : Nat) (h : AppInv a) :
    AppInv (a.move_to_bottom n) := by
  obtain ⟨h1, h2⟩ := h
  unfold AppModel.move_to_bottom
  by_cases hl : a.view_mode = .Log
  · rw [if_pos hl]; exact ⟨h1, h2⟩
  · rw [if_neg hl]
    by_cases hne : a.filtered ≠ []
    · rw [if_pos hne]
      refine ⟨h1, fun _ => ?_⟩
      have hpos : 0 < a.filtered.length := List.length_pos.mpr hne
      show a.filtered.length - 1 < a.filtered.length
      omega
    · rw [if_neg hne]; exact ⟨h1, h2⟩

theorem selected_session_isSome_of_inv (a : AppModel) (h : AppInv a)
    (hne : a.filtered ≠ []) : (a.selected_session).isSome = true := by
  obtain ⟨h1, h2⟩ := h
  have hsel := h2 hne
  obtain ⟨i, hig⟩ : ∃ i, a.filtered.get? a.selected = some i :=
    ⟨_, List.get?_eq_get hsel⟩
  have hmem : i ∈ a.filtered := List.get?_mem hig
  rw [h1] at hmem
  have hlt : i < a.entries.length := filteredIndexList_mem_lt _ _ i hmem
  unfold AppModel.selected_session
  rw [hig]
  show (a.entries.get? i).isSome = true
  rw [List.get?_eq_get hlt]
  rfl

/-- C10: after every modelled state-mutating operation (discovery refresh,
remote-list dirty merge, filter character push/pop, sort cycling, cursor
moves), whenever the filtered index vector is non-empty the selection
cursor satisfies `selected < filtered.length`, and `selected_session`
returns `some` entry whenever any entry passes the filter. -/
theorem c10_selection_invariant :
    (∀ (a : AppModel) (d : List Session) (r : List Implementation),
      AppInv (a.refresh d r)) ∧
    (∀ (a : AppModel) (dirty : Bool) (r : List Implementation), AppInv a →
      AppInv (a.check_tervezo_dirty dirty r)) ∧
    (∀ (a : AppModel) (c : Char), AppInv (a.filter_push c)) ∧
    (∀ a : AppModel, AppInv a.filter_pop) ∧
    (∀ a : AppModel, AppInv a → AppInv a.cycle_sort) ∧
    (∀ a : AppModel, AppInv a → AppInv a.move_up) ∧
    (∀ a : AppModel, AppInv a → AppInv a.move_down) ∧
    (∀ a : AppModel, AppInv a → AppInv a.move_to_top) ∧
    (∀ (a : AppModel) (n : Nat), AppInv a → AppInv (a.move_to_bottom n)) ∧
    (∀ a : AppModel, AppInv a → a.filtered ≠ [] →
      (a.selected_session).isSome = true) :=
  ⟨refresh_inv, check_tervezo_dirty_inv, filter_push_inv, filter_pop_inv,
    cycle_sort_inv, move_up_inv, move_down_inv, move_to_top_inv,
    move_to_bottom_inv, selected_session_isSome_of_inv⟩

/-- A concrete app with one local session, used in the C10 witness. -/
def appEx : AppModel where
  local_sessions := [sessionEx none]
  entries := [SessionEntry.Local (sessionEx none)]
  filtered := [0]
  selected := 0
  view_mode := .List
  sort_column := .LastActive
  filter_query := ""
  command_input := ""
  detail_items := []
  detail_cursor := 0
  detail_preview := none
  detail_preview_scroll := 0
  tervezo_detail := none
  log_scroll := 0
  should_quit := false

/-- Witness for C10: the invariant holds at `appEx` and `selected_session`
returns an entry there. -/
theorem c10_selection_invariant_witness :
    AppInv appEx ∧ ([0] : List Nat) ≠ [] ∧
    (appEx.selected_session).isSome = true := by
  have hinv : AppInv appEx := ⟨by decide, fun _ => Nat.zero_lt_one⟩
  exact ⟨hinv, by decide,
    c10_selection_invariant.2.2.2.2.2.2.2.2.2 appEx hinv (by decide)⟩

end C9s
